import Mathlib

/-!
Verification model of the Ubuntu Image Fetcher (src/index.py).

Strings are modelled as `List Char`.  The helpers below embed the
Python string operations the program uses (`str.strip`, `str.lower`,
`int(str)`, slicing, `os.path.basename`, `os.path.splitext` in their
POSIX form), and the program's own functions `sanitize_filename`,
`get_extension_from_content_type` and the body of `main`.

Effects of `main` (stdin, the HTTP GET, the filesystem) are supplied by
an `Env` oracle record; `hash(url)` and `urlparse(url).path` — values
produced by the Python runtime and standard library from the entered
URL — appear as the oracle fields `urlHash` and `urlPath`.
-/

set_option maxRecDepth 100000

namespace ImageFetcher

/-- ASCII part of the whitespace set stripped by Python `str.strip()` /
accepted around `int()` literals. -/
def isPySpace (c : Char) : Bool :=
  c == ' ' || c == '\t' || c == '\n' || c == '\r' || c == '\x0b' || c == '\x0c'

/-- Python `str.strip()` (ASCII whitespace). -/
def stripWs (s : List Char) : List Char :=
  ((s.dropWhile isPySpace).reverse.dropWhile isPySpace).reverse

/-- Python `str.lower()` on one character (ASCII range). -/
def pyLowerChar (c : Char) : Char :=
  if 'A' ≤ c ∧ c ≤ 'Z' then Char.ofNat (c.toNat + 32) else c

/-- Python `str.lower()` (ASCII range). -/
def pyLower (s : List Char) : List Char := s.map pyLowerChar

def isAsciiDigit (c : Char) : Bool := '0' ≤ c && c ≤ '9'

/-- Tail of a valid Python integer digit sequence: digits with single
underscores allowed only between digits. -/
def vdsAux : List Char → Bool
  | [] => true
  | c :: rest =>
    if isAsciiDigit c then vdsAux rest
    else if c = '_' then
      match rest with
      | d :: rest2 => isAsciiDigit d && vdsAux rest2
      | [] => false
    else false

/-- Valid Python integer digit sequence: `digit (digit | _ digit)*`. -/
def validDigitSeq (s : List Char) : Bool :=
  match s with
  | [] => false
  | c :: rest => isAsciiDigit c && vdsAux rest

/-- Numeric value of a digit sequence, underscores skipped. -/
def digitsVal (s : List Char) : Nat :=
  (s.filter (fun c => c ≠ '_')).foldl (fun acc c => acc * 10 + (c.toNat - 48)) 0

/-- Python `int(s)` for `str` input: strips whitespace, optional sign,
decimal digits with underscore separators; `none` models `ValueError`. -/
def pyInt (s : List Char) : Option Int :=
  let t := stripWs s
  match t with
  | '+' :: r => if validDigitSeq r then some (digitsVal r : Int) else none
  | '-' :: r => if validDigitSeq r then some (-(digitsVal r : Int)) else none
  | r => if validDigitSeq r then some (digitsVal r : Int) else none

/-- Python slice `s[:n]` with a possibly negative bound `n`. -/
def pyTake (s : List Char) (n : Int) : List Char :=
  if 0 ≤ n then s.take n.toNat else s.take ((s.length : Int) + n).toNat

/-- Python `s.rfind(c)`: index of the last occurrence, `none` if absent. -/
def rfindIdx (s : List Char) (c : Char) : Option Nat :=
  (List.range s.length).foldl (fun acc i => if s.get? i = some c then some i else acc) none

/-- POSIX `os.path.basename`: everything after the last slash. -/
def basename (p : List Char) : List Char :=
  match rfindIdx p '/' with
  | some i => p.drop (i + 1)
  | none => p

/-- POSIX `os.path.splitext` (CPython `genericpath._splitext`): split at
the last dot after the last slash, unless every character between the
slash and that dot is itself a dot (leading dots never start an
extension). -/
def splitext (p : List Char) : List Char × List Char :=
  match rfindIdx p '.' with
  | none => (p, [])
  | some d =>
    let sepN : Nat :=
      match rfindIdx p '/' with
      | some i => i + 1
      | none => 0
    if sepN ≤ d ∧ (List.range' sepN (d - sepN)).any (fun j => p.get? j ≠ some '.') then
      (p.take d, p.drop d)
    else (p, [])

/-- Python truthiness-based `x or default` for an optional string
(`None` and the empty string are falsy). -/
def pyOr (x : Option (List Char)) (d : List Char) : List Char :=
  match x with
  | none => d
  | some v => if v = [] then d else v

/-- Decimal rendering of a natural number, as Python `f"{n}"`. -/
def natToChars (n : Nat) : List Char := Nat.toDigits 10 n

/-! ## The program's pure functions (src/index.py lines 116-142) -/

/-- `dangerous_chars = '<>:"/\\|?*'` (line 133). -/
def dangerous_chars : List Char := ['<', '>', ':', '"', '/', '\\', '|', '?', '*']

/-- The replacement loop of `sanitize_filename` (lines 134-135): for
each dangerous character in order, replace every occurrence by `_`. -/
def replaceDangerous (s : List Char) : List Char :=
  dangerous_chars.foldl (fun acc c => acc.map (fun x => if x = c then '_' else x)) s

/-- `sanitize_filename` (lines 130-142): replace dangerous characters,
then if the result is longer than 255, truncate the base name keeping
the extension (`name[:255-len(ext)] + ext`, a Python slice whose bound
may be negative). -/
def sanitize_filename (filename : List Char) : List Char :=
  let f1 := replaceDangerous filename
  if 255 < f1.length then
    let ne := splitext f1
    pyTake ne.1 (255 - (ne.2.length : Int)) ++ ne.2
  else f1

/-- The `extensions` dict of `get_extension_from_content_type`
(lines 118-127). -/
def extensionsTable : List (List Char × List Char) :=
  [("image/jpeg".toList, ".jpg".toList),
   ("image/jpg".toList, ".jpg".toList),
   ("image/png".toList, ".png".toList),
   ("image/gif".toList, ".gif".toList),
   ("image/webp".toList, ".webp".toList),
   ("image/bmp".toList, ".bmp".toList),
   ("image/svg+xml".toList, ".svg".toList),
   ("image/tiff".toList, ".tiff".toList)]

/-- Python `dict.get` on the fixed table. -/
def lookupTable (k : List Char) : Option (List Char) :=
  (extensionsTable.find? (fun p => p.1 = k)).map (fun p => p.2)

/-- `get_extension_from_content_type` (lines 116-128):
`extensions.get(content_type.lower())`. -/
def get_extension_from_content_type (content_type : List Char) : Option (List Char) :=
  lookupTable (pyLower content_type)

/-! ## Filename derivation and the collision rename loop (main, lines 44-69) -/

/-- Filename derivation in `main` (lines 45-51): take the last path
segment of the URL; if it is empty or has no dot, synthesize
`ubuntu_image_{hash(url) % 10000}{extension}` with the extension from
the content type, defaulting to `.jpg`. -/
def deriveFilename (urlPath : List Char) (content_type : List Char) (urlHash : Int) : List Char :=
  let filename := basename urlPath
  if filename = [] ∨ '.' ∉ filename then
    let extension := pyOr (get_extension_from_content_type content_type) ".jpg".toList
    "ubuntu_image_".toList ++ natToChars ((urlHash % 10000).toNat) ++ extension
  else filename

/-- `f"{base}_{counter}{ext}"` (line 66). -/
def candidate (base ext : List Char) (k : Nat) : List Char :=
  base ++ '_' :: (natToChars k ++ ext)

/-- Length of the longest filename in the directory listing. -/
def maxLen (fs : List (List Char)) : Nat :=
  fs.foldr (fun x m => max x.length m) 0

/-- The `while os.path.exists(filepath)` rename loop (lines 64-68),
fuelled: starting at counter `k`, return the first candidate not in
`fs`.  With enough fuel this always ends on a free name. -/
def renameLoopAux (base ext : List Char) (fs : List (List Char)) : Nat → Nat → List Char
  | 0, k => candidate base ext k
  | fuel + 1, k =>
    if candidate base ext k ∈ fs then renameLoopAux base ext fs fuel (k + 1)
    else candidate base ext k

/-- Result of the rename loop entered with `counter = 1` (line 64); the
fuel `10 ^ (maxLen fs + 1)` provably suffices. -/
def renameFrom (base ext : List Char) (fs : List (List Char)) : List Char :=
  renameLoopAux base ext fs (10 ^ (maxLen fs + 1)) 1

/-! ## The model of `main` (lines 7-114) -/

/-- Exception classes that can arise in a run.  `keyboardInterrupt`
stands for the `BaseException`s that `except Exception` does not catch. -/
inductive Exc where
  | connectionError
  | timeoutError
  | httpError
  | requestError
  | permissionError
  | valueError
  | eofError
  | keyboardInterrupt
  | otherError
deriving DecidableEq

/-- Whether the class is a subclass of Python `Exception` (everything
here except `KeyboardInterrupt`), hence caught by the handler chain of
lines 97-114, whose last arm is `except Exception`. -/
def isExceptionSubclass : Exc → Bool
  | Exc.keyboardInterrupt => false
  | _ => true

/-- How a run of `main` ends. -/
inductive Outcome where
  | noUrl
  | cancelledType
  | cancelledSize
  | success
  | caught (e : Exc)
  | raised (e : Exc)
deriving DecidableEq

/-- The parts of the HTTP response `main` inspects.  `statusError`
makes `raise_for_status()` (line 33) raise; header values are the
strings `response.headers.get` returns (`none` = header absent). -/
structure Response where
  statusError : Bool
  contentType : List Char
  contentLength : Option (List Char)
deriving DecidableEq

deriving instance DecidableEq for Except

/-- Oracle for one run of `main`: results of every external effect, in
program order.  `urlHash` and `urlPath` stand for `hash(url)` and
`urlparse(url).path`; `fs` is the set of filenames already present in
`Fetched_Images/` (static during the run); `Except.error e` on an
`input()` field means that read raised `e`. -/
structure Env where
  urlInput : Except Exc (List Char)
  makedirsExc : Option Exc
  getResult : Except Exc Response
  urlPath : List Char
  urlHash : Int
  ctAnswer : Except Exc (List Char)
  owAnswer : Except Exc (List Char)
  lfAnswer : Except Exc (List Char)
  fs : List (List Char)
  openExc : Option Exc
deriving DecidableEq

/-- Observable result of a run: the final outcome, the filename the
output file was opened and written under (if the write was reached),
and which of the three confirmation prompts were shown. -/
structure RunResult where
  outcome : Outcome
  written : Option (List Char)
  typePrompted : Bool
  owPrompted : Bool
  sizePrompted : Bool
deriving DecidableEq

/-- An exception raised inside the `try` of lines 22-95: caught by the
handler chain iff it is a subclass of `Exception`. -/
def catchOutcome (e : Exc) : Outcome :=
  if isExceptionSubclass e then Outcome.caught e else Outcome.raised e

/-- Opening and writing the file (lines 80-95): on success the file is
written under `filename` and the run prints its success summary. -/
def stageWrite (openExc : Option Exc) (filename : List Char) (tp ow sp : Bool) : RunResult :=
  match openExc with
  | some e => ⟨catchOutcome e, none, tp, ow, sp⟩
  | none => ⟨Outcome.success, some filename, tp, ow, sp⟩

/-- Lines 72-78: `file_size = int(response.headers.get('content-length', 0))`
(`ValueError` when the header is present but not an integer literal),
then the large-file prompt when the size exceeds 50 MiB.  The first
argument is the result of the `int` conversion. -/
def stageSizeParsed (parsed : Option Int) (lfAnswer : Except Exc (List Char))
    (openExc : Option Exc) (filename : List Char) (tp ow : Bool) : RunResult :=
  match parsed with
  | none => ⟨catchOutcome Exc.valueError, none, tp, ow, false⟩
  | some n =>
    if 52428800 < n then
      match lfAnswer with
      | Except.error e => ⟨catchOutcome e, none, tp, ow, true⟩
      | Except.ok ans =>
        if pyLower ans = ['y'] then stageWrite openExc filename tp ow true
        else ⟨Outcome.cancelledSize, none, tp, ow, true⟩
    else stageWrite openExc filename tp ow false

/-- Line 72: read `content-length` (absent means `0`), convert with
`int`, then continue with the size check. -/
def stageSize (contentLength : Option (List Char)) (lfAnswer : Except Exc (List Char))
    (openExc : Option Exc) (filename : List Char) (tp ow : Bool) : RunResult :=
  match contentLength with
  | none => stageWrite openExc filename tp ow false
  | some s => stageSizeParsed (pyInt s) lfAnswer openExc filename tp ow

/-- Lines 58-69: if the target name exists, prompt to overwrite; `y`
keeps the name (overwriting), anything else runs the rename loop. -/
def stageCollision (fs : List (List Char)) (owAnswer : Except Exc (List Char))
    (contentLength : Option (List Char)) (lfAnswer : Except Exc (List Char))
    (openExc : Option Exc) (filename : List Char) (tp : Bool) : RunResult :=
  if filename ∈ fs then
    match owAnswer with
    | Except.error e => ⟨catchOutcome e, none, tp, true, false⟩
    | Except.ok ans =>
      if pyLower ans = ['y'] then stageSize contentLength lfAnswer openExc filename tp true
      else
        let ne := splitext filename
        stageSize contentLength lfAnswer openExc (renameFrom ne.1 ne.2 fs) tp true
  else stageSize contentLength lfAnswer openExc filename tp false

/-- Lines 44-55: derive and sanitize the filename, then continue. -/
def stageName (env : Env) (resp : Response) (tp : Bool) : RunResult :=
  stageCollision env.fs env.owAnswer resp.contentLength env.lfAnswer env.openExc
    (sanitize_filename (deriveFilename env.urlPath resp.contentType env.urlHash)) tp

/-- The check of line 37: `content_type.startswith('image/')` — a
case-sensitive prefix test. -/
def isImageType (ct : List Char) : Bool := "image/".toList.isPrefixOf ct

/-- Lines 36-42: inspect the content type; if it does not start with
`image/`, warn and ask for confirmation (`y` proceeds, anything else
cancels).  The first argument is the result of the confirmation
`input()` of line 39. -/
def mainType : Except Exc (List Char) → Env → Response → RunResult
  | Except.error e, _, _ => ⟨catchOutcome e, none, true, false, false⟩
  | Except.ok ans, env, resp =>
    if pyLower ans = ['y'] then stageName env resp true
    else ⟨Outcome.cancelledType, none, true, false, false⟩

/-- Lines 33-42: `raise_for_status()` then the content-type check. -/
def mainResp (resp : Response) (env : Env) : RunResult :=
  if resp.statusError then ⟨catchOutcome Exc.httpError, none, false, false, false⟩
  else
    if isImageType resp.contentType then stageName env resp false
    else mainType env.ctAnswer env resp

/-- Line 32: the `requests.get` call; an exception here is caught by
the surrounding `try`. -/
def mainGet : Except Exc Response → Env → RunResult
  | Except.error e, _ => ⟨catchOutcome e, none, false, false, false⟩
  | Except.ok resp, env => mainResp resp env

/-- Line 24: `os.makedirs(..., exist_ok=True)`. -/
def mainDirs : Option Exc → Env → RunResult
  | some e, _ => ⟨catchOutcome e, none, false, false, false⟩
  | none, env => mainGet env.getResult env

/-- One run of `main` (lines 7-114).  The URL `input()` of line 16 sits
outside the `try`, so an exception there propagates; inside the `try`,
an exception is caught iff it subclasses `Exception`. -/
def run_main (env : Env) : RunResult :=
  match env.urlInput with
  | Except.error e => ⟨Outcome.raised e, none, false, false, false⟩
  | Except.ok rawUrl =>
    let url := stripWs rawUrl
    if url = [] then ⟨Outcome.noUrl, none, false, false, false⟩
    else mainDirs env.makedirsExc env

/-- No exception, or an exception that `except Exception` catches. -/
def excOkOpt : Option Exc → Bool
  | some e => isExceptionSubclass e
  | none => true

/-- A successful effect, or an exception `except Exception` catches. -/
def excOkEx {α : Type} : Except Exc α → Bool
  | Except.error e => isExceptionSubclass e
  | Except.ok _ => true

/-- Every exception the environment delivers inside the `try` block is
a subclass of `Exception`. -/
def envExcsOk (env : Env) : Bool :=
  excOkOpt env.makedirsExc && excOkEx env.getResult && excOkEx env.ctAnswer &&
    excOkEx env.owAnswer && excOkEx env.lfAnswer && excOkOpt env.openExc

/-! ## Lemmas about the sanitizer -/

/-- Sequentially replacing each character of `ds` by `_` is the same as
one pass replacing every character that occurs in `ds`. -/
theorem foldl_replace_eq_map (ds : List Char) (s : List Char) :
    ds.foldl (fun acc c => acc.map (fun x => if x = c then '_' else x)) s
      = s.map (fun x => if x ∈ ds then '_' else x) := by
  induction ds generalizing s with
  | nil => simp
  | cons c t ih =>
    simp only [List.foldl_cons]
    rw [ih, List.map_map]
    refine List.map_congr_left (fun a _ => ?_)
    by_cases hac : a = c
    · subst hac
      simp only [Function.comp_apply, if_pos rfl, List.mem_cons, true_or, if_pos]
      by_cases h : '_' ∈ t <;> simp [h]
    · simp only [Function.comp_apply, if_neg hac, List.mem_cons]
      by_cases h : a ∈ t <;> simp [h, hac]

/-- The replacement loop of `sanitize_filename`, as a single map. -/
theorem replaceDangerous_eq_map (s : List Char) :
    replaceDangerous s = s.map (fun x => if x ∈ dangerous_chars then '_' else x) :=
  foldl_replace_eq_map dangerous_chars s

theorem replaceDangerous_length (s : List Char) :
    (replaceDangerous s).length = s.length := by
  rw [replaceDangerous_eq_map]; exact List.length_map s _

theorem mem_replaceDangerous_safe {c : Char} {s : List Char}
    (h : c ∈ replaceDangerous s) : c ∉ dangerous_chars := by
  rw [replaceDangerous_eq_map] at h
  rcases List.mem_map.1 h with ⟨a, _, ha⟩
  by_cases hm : a ∈ dangerous_chars
  · rw [if_pos hm] at ha; rw [← ha]; decide
  · rw [if_neg hm] at ha; rw [← ha]; exact hm

theorem replaceDangerous_id {s : List Char}
    (h : ∀ c ∈ s, c ∉ dangerous_chars) : replaceDangerous s = s := by
  rw [replaceDangerous_eq_map]
  exact (List.map_congr_left (fun a ha => if_neg (h a ha))).trans (List.map_id s)

theorem pyTake_subset (s : List Char) (n : Int) : pyTake s n ⊆ s := by
  unfold pyTake
  split <;> exact List.take_subset _ _

theorem splitext_fst_subset (p : List Char) : (splitext p).1 ⊆ p := by
  unfold splitext
  cases rfindIdx p '.' with
  | none => exact fun a h => h
  | some d =>
    simp only
    split
    · exact List.take_subset _ _
    · exact fun a h => h

theorem splitext_snd_subset (p : List Char) : (splitext p).2 ⊆ p := by
  unfold splitext
  cases rfindIdx p '.' with
  | none => exact List.nil_subset _
  | some d =>
    simp only
    split
    · exact List.drop_subset _ _
    · exact List.nil_subset _

/-- `sanitize_filename` with its `let`s expanded. -/
theorem sanitize_filename_eq (s : List Char) :
    sanitize_filename s =
      if 255 < (replaceDangerous s).length then
        pyTake (splitext (replaceDangerous s)).1
            (255 - ((splitext (replaceDangerous s)).2.length : Int))
          ++ (splitext (replaceDangerous s)).2
      else replaceDangerous s := rfl

theorem mem_sanitize_mem_replace {c : Char} {s : List Char}
    (h : c ∈ sanitize_filename s) : c ∈ replaceDangerous s := by
  rw [sanitize_filename_eq] at h
  split at h
  · rcases List.mem_append.1 h with h1 | h2
    · exact splitext_fst_subset _ (pyTake_subset _ _ h1)
    · exact splitext_snd_subset _ h2
  · exact h

/-! ## Lemmas about the extension table -/

theorem lookupTable_mem {k v : List Char} (h : lookupTable k = some v) :
    (k, v) ∈ extensionsTable := by
  unfold lookupTable at h
  cases hf : extensionsTable.find? (fun p => p.1 = k) with
  | none => rw [hf] at h; exact absurd h (by simp)
  | some p =>
    rw [hf] at h
    have hp := List.find?_some hf
    have hm := List.mem_of_find?_eq_some hf
    have hk : p.1 = k := by simpa using hp
    have hv : p.2 = v := by simpa using h
    rw [← hk, ← hv]
    exact hm

/-- Whatever the content type, the extension `main` ends up with (line
50: resolver result `or '.jpg'`) is one of the seven table values or
the default. -/
theorem resolved_extension_mem (ct : List Char) :
    pyOr (get_extension_from_content_type ct) ".jpg".toList ∈
      [".jpg".toList, ".png".toList, ".gif".toList, ".webp".toList,
       ".bmp".toList, ".svg".toList, ".tiff".toList] := by
  unfold get_extension_from_content_type
  cases hf : lookupTable (pyLower ct) with
  | none => simp [pyOr]
  | some v =>
    have hmem := lookupTable_mem hf
    simp only [pyOr]
    revert hmem
    simp only [extensionsTable, List.mem_cons, List.mem_nil_iff, or_false, Prod.mk.injEq]
    rintro (⟨-, rfl⟩ | ⟨-, rfl⟩ | ⟨-, rfl⟩ | ⟨-, rfl⟩ | ⟨-, rfl⟩ | ⟨-, rfl⟩ | ⟨-, rfl⟩ | ⟨-, rfl⟩) <;> decide

/-! ## Claim theorems: the pure functions -/

/-- C6: for every input filename, the output of `sanitize_filename`
contains none of the characters `< > : " / \ | ? *`, and the
replacement step rewrites the input character by character — each
dangerous character becomes `_`, every other character and the order
are unchanged. -/
theorem sanitize_output_no_dangerous (s : List Char) :
    (∀ c ∈ sanitize_filename s, c ∉ dangerous_chars) ∧
    replaceDangerous s = s.map (fun c => if c ∈ dangerous_chars then '_' else c) :=
  ⟨fun _ hc => mem_replaceDangerous_safe (mem_sanitize_mem_replace hc),
   replaceDangerous_eq_map s⟩

theorem sanitize_output_no_dangerous_witness :
    '<' ∉ sanitize_filename "a<b.png".toList ∧
    replaceDangerous "a<b.png".toList
      = "a<b.png".toList.map (fun c => if c ∈ dangerous_chars then '_' else c) :=
  ⟨fun hmem => (sanitize_output_no_dangerous "a<b.png".toList).1 '<' hmem (by decide),
   (sanitize_output_no_dangerous "a<b.png".toList).2⟩

/-- C8 (corrected) counterexample: `sanitize_filename` is not
idempotent on all inputs.  On `'a' '.' 'b'*256` one application leaves
257 characters (the 257-character extension defeats the truncation),
while a second application cuts to 255, so the two results differ. -/
theorem sanitize_not_idempotent :
    sanitize_filename (sanitize_filename ('a' :: '.' :: List.replicate 256 'b'))
      ≠ sanitize_filename ('a' :: '.' :: List.replicate 256 'b') := by decide

/-- C8 (amended): sanitizing an already-safe filename — no dangerous
characters, length at most 255 — returns it unchanged. -/
theorem sanitize_safe_id (s : List Char)
    (hsafe : ∀ c ∈ s, c ∉ dangerous_chars) (hlen : s.length ≤ 255) :
    sanitize_filename s = s := by
  rw [sanitize_filename_eq, replaceDangerous_id hsafe, if_neg (by omega)]

theorem sanitize_safe_id_witness :
    sanitize_filename "cat.png".toList = "cat.png".toList :=
  sanitize_safe_id _ (by decide) (by decide)

/-- C1 (corrected) counterexample: an input longer than 255 characters
whose `splitext` extension is itself longer than 255 characters defeats
the truncation — the output also exceeds 255 characters. -/
theorem sanitize_length_counterexample :
    255 < ('a' :: '.' :: List.replicate 300 'b').length ∧
    255 < (sanitize_filename ('a' :: '.' :: List.replicate 300 'b')).length := by decide

/-- C1 (amended): for every input longer than 255 characters, provided
the `splitext` extension of the character-replaced input has length at
most 255, the sanitized output has length at most 255 and ends with
that extension unchanged. -/
theorem sanitize_truncates_keeping_ext (s : List Char) (hlen : 255 < s.length)
    (hext : (splitext (replaceDangerous s)).2.length ≤ 255) :
    (sanitize_filename s).length ≤ 255 ∧
    (splitext (replaceDangerous s)).2 <:+ sanitize_filename s := by
  have hr : 255 < (replaceDangerous s).length := by rw [replaceDangerous_length]; exact hlen
  rw [sanitize_filename_eq, if_pos hr]
  constructor
  · rw [List.length_append]
    have hnn : (0 : Int) ≤ 255 - ((splitext (replaceDangerous s)).2.length : Int) := by
      omega
    have : (pyTake (splitext (replaceDangerous s)).1
        (255 - ((splitext (replaceDangerous s)).2.length : Int))).length
        ≤ 255 - (splitext (replaceDangerous s)).2.length := by
      unfold pyTake
      rw [if_pos hnn, List.length_take]
      refine le_trans (min_le_left _ _) ?_
      omega
    omega
  · exact List.suffix_append _ _

theorem sanitize_truncates_keeping_ext_witness :
    (sanitize_filename (List.replicate 300 'x' ++ ".png".toList)).length ≤ 255 ∧
    (splitext (replaceDangerous (List.replicate 300 'x' ++ ".png".toList))).2 <:+
      sanitize_filename (List.replicate 300 'x' ++ ".png".toList) :=
  sanitize_truncates_keeping_ext _ (by decide) (by decide)

/-- C7: a content-type string whose lowercase form is one of the eight
table keys resolves to exactly the mapped extension; any other string
resolves to no mapping, and the caller's `or '.jpg'` then yields
`.jpg`.  The table keys are exactly the eight listed MIME types. -/
theorem get_extension_table_spec (s : List Char) :
    (∀ k v, (k, v) ∈ extensionsTable → pyLower s = k →
      get_extension_from_content_type s = some v) ∧
    (pyLower s ∉ extensionsTable.map Prod.fst →
      get_extension_from_content_type s = none ∧
      pyOr (get_extension_from_content_type s) ".jpg".toList = ".jpg".toList) ∧
    extensionsTable.map Prod.fst =
      ["image/jpeg".toList, "image/jpg".toList, "image/png".toList, "image/gif".toList,
       "image/webp".toList, "image/bmp".toList, "image/svg+xml".toList, "image/tiff".toList] := by
  refine ⟨?_, ?_, by decide⟩
  · intro k v hm hk
    unfold get_extension_from_content_type
    rw [hk]
    revert hm
    simp only [extensionsTable, List.mem_cons, List.mem_nil_iff, or_false, Prod.mk.injEq]
    rintro (⟨rfl, rfl⟩ | ⟨rfl, rfl⟩ | ⟨rfl, rfl⟩ | ⟨rfl, rfl⟩ |
            ⟨rfl, rfl⟩ | ⟨rfl, rfl⟩ | ⟨rfl, rfl⟩ | ⟨rfl, rfl⟩) <;> decide
  · intro hnot
    have hnone : get_extension_from_content_type s = none := by
      unfold get_extension_from_content_type lookupTable
      rw [List.find?_eq_none.2 ?_]
      · rfl
      · intro p hp hfalse
        apply hnot
        have : p.1 = pyLower s := by simpa using hfalse
        rw [← this]
        exact List.mem_map_of_mem Prod.fst hp
    exact ⟨hnone, by rw [hnone]; rfl⟩

theorem get_extension_table_spec_witness :
    get_extension_from_content_type "IMAGE/PNG".toList = some ".png".toList ∧
    get_extension_from_content_type "text/html".toList = none :=
  ⟨(get_extension_table_spec "IMAGE/PNG".toList).1 "image/png".toList ".png".toList
      (by decide) (by decide),
   ((get_extension_table_spec "text/html".toList).2.1 (by decide)).1⟩

/-! ## Lemmas about decimal rendering and the rename loop -/

theorem toDigitsCore_length_ge (fuel : Nat) : ∀ (n : Nat) (ds : List Char),
    ds.length ≤ (Nat.toDigitsCore 10 fuel n ds).length := by
  induction fuel with
  | zero => intro n ds; rw [Nat.toDigitsCore]
  | succ f ih =>
    intro n ds
    rw [Nat.toDigitsCore]
    split
    · simp
    · exact le_trans (by simp) (ih (n / 10) ((n % 10).digitChar :: ds))

theorem toDigitsCore_length_gt (m : Nat) : ∀ (fuel n : Nat) (ds : List Char),
    10 ^ m ≤ n → m < fuel →
    m + 1 + ds.length ≤ (Nat.toDigitsCore 10 fuel n ds).length := by
  induction m with
  | zero =>
    intro fuel n ds _ hf
    cases fuel with
    | zero => omega
    | succ f =>
      rw [Nat.toDigitsCore]
      split
      · simp only [List.length_cons]; omega
      · have := toDigitsCore_length_ge f (n / 10) ((n % 10).digitChar :: ds)
        simp only [List.length_cons] at this
        omega
  | succ m ih =>
    intro fuel n ds hn hf
    cases fuel with
    | zero => omega
    | succ f =>
      rw [Nat.toDigitsCore]
      have hdiv : 10 ^ m ≤ n / 10 := by
        rw [Nat.le_div_iff_mul_le (by norm_num)]
        calc 10 ^ m * 10 = 10 ^ (m + 1) := by ring
          _ ≤ n := hn
      have hpos : 1 ≤ 10 ^ m := Nat.one_le_pow m 10 (by norm_num)
      rw [if_neg (by omega)]
      have := ih f (n / 10) ((n % 10).digitChar :: ds) hdiv (by omega)
      simp only [List.length_cons] at this
      omega

theorem toDigitsCore_length_le (m : Nat) : ∀ (fuel n : Nat) (ds : List Char),
    n < 10 ^ (m + 1) → (Nat.toDigitsCore 10 fuel n ds).length ≤ m + 1 + ds.length := by
  induction m with
  | zero =>
    intro fuel n ds hn
    cases fuel with
    | zero => rw [Nat.toDigitsCore]; omega
    | succ f =>
      rw [Nat.toDigitsCore]
      split
      · simp only [List.length_cons]; omega
      · exact absurd (Nat.div_eq_of_lt (by simpa using hn)) (by assumption)
  | succ m ih =>
    intro fuel n ds hn
    cases fuel with
    | zero => rw [Nat.toDigitsCore]; omega
    | succ f =>
      rw [Nat.toDigitsCore]
      split
      · simp; omega
      · have hdiv : n / 10 < 10 ^ (m + 1) := by
          rw [Nat.div_lt_iff_lt_mul (by norm_num)]
          calc n < 10 ^ (m + 2) := hn
            _ = 10 ^ (m + 1) * 10 := by ring
        have := ih f (n / 10) ((n % 10).digitChar :: ds) hdiv
        simp only [List.length_cons] at this
        omega

theorem toDigitsCore_mem (fuel : Nat) : ∀ (n : Nat) (ds : List Char) (c : Char),
    c ∈ Nat.toDigitsCore 10 fuel n ds → c ∈ ds ∨ c ∈ "0123456789".toList := by
  have hdig : ∀ m : Nat, m < 10 → Nat.digitChar m ∈ "0123456789".toList := by decide
  induction fuel with
  | zero => intro n ds c h; rw [Nat.toDigitsCore] at h; exact Or.inl h
  | succ f ih =>
    intro n ds c h
    rw [Nat.toDigitsCore] at h
    have hcons : c ∈ (n % 10).digitChar :: ds → c ∈ ds ∨ c ∈ "0123456789".toList := by
      intro hc
      rcases List.mem_cons.1 hc with rfl | hc
      · exact Or.inr (hdig _ (Nat.mod_lt n (by norm_num)))
      · exact Or.inl hc
    split at h
    · exact hcons h
    · rcases ih (n / 10) ((n % 10).digitChar :: ds) c h with hc | hc
      · exact hcons hc
      · exact Or.inr hc

theorem natToChars_mem_digits {c : Char} {n : Nat} (h : c ∈ natToChars n) :
    c ∈ "0123456789".toList := by
  rcases toDigitsCore_mem (n + 1) n [] c h with hc | hc
  · cases hc
  · exact hc

theorem natToChars_length_le {n m : Nat} (h : n < 10 ^ (m + 1)) :
    (natToChars n).length ≤ m + 1 := by
  have := toDigitsCore_length_le m (n + 1) n [] h
  simpa using this

theorem natToChars_length_ge {n m : Nat} (h : 10 ^ m ≤ n) :
    m + 1 ≤ (natToChars n).length := by
  have hm : m < n + 1 := by
    have := Nat.lt_pow_self (a := 10) (by norm_num) m
    omega
  have := toDigitsCore_length_gt m (n + 1) n [] h hm
  simpa using this

theorem mem_le_maxLen {x : List Char} {fs : List (List Char)} (h : x ∈ fs) :
    x.length ≤ maxLen fs := by
  induction fs with
  | nil => cases h
  | cons y t ih =>
    rcases List.mem_cons.1 h with rfl | hx
    · exact le_max_left _ _
    · exact le_trans (ih hx) (le_max_right _ _)

theorem candidate_long_not_mem (base ext : List Char) (fs : List (List Char)) :
    candidate base ext (10 ^ (maxLen fs + 1)) ∉ fs := by
  intro hmem
  have h1 := mem_le_maxLen hmem
  have h2 : maxLen fs + 2 ≤ (natToChars (10 ^ (maxLen fs + 1))).length :=
    natToChars_length_ge (le_refl _)
  unfold candidate at h1
  simp only [List.length_append, List.length_cons] at h1
  omega

theorem renameLoopAux_not_mem (base ext : List Char) (fs : List (List Char)) :
    ∀ (fuel k : Nat), (∃ j, j < fuel ∧ candidate base ext (k + j) ∉ fs) →
      renameLoopAux base ext fs fuel k ∉ fs := by
  intro fuel
  induction fuel with
  | zero =>
    intro k h
    rcases h with ⟨j, hj, _⟩
    omega
  | succ f ih =>
    intro k h
    rcases h with ⟨j, hj, hfree⟩
    rw [renameLoopAux]
    by_cases hc : candidate base ext k ∈ fs
    · rw [if_pos hc]
      apply ih (k + 1)
      rcases Nat.eq_zero_or_pos j with rfl | hpos
      · exact absurd hc (by simpa using hfree)
      · exact ⟨j - 1, by omega, by rw [show k + 1 + (j - 1) = k + j by omega]; exact hfree⟩
    · rw [if_neg hc]; exact hc

/-- The rename loop of lines 64-68 always ends on a filename that is
not already present in the directory. -/
theorem renameFrom_not_mem (base ext : List Char) (fs : List (List Char)) :
    renameFrom base ext fs ∉ fs := by
  apply renameLoopAux_not_mem
  have hpos : 1 ≤ 10 ^ (maxLen fs + 1) := Nat.one_le_pow _ 10 (by norm_num)
  refine ⟨10 ^ (maxLen fs + 1) - 1, by omega, ?_⟩
  rw [show 1 + (10 ^ (maxLen fs + 1) - 1) = 10 ^ (maxLen fs + 1) by omega]
  exact candidate_long_not_mem base ext fs

/-! ## Lemmas about the stages of `main` -/

theorem catchOutcome_caught {e : Exc} (h : isExceptionSubclass e = true) :
    catchOutcome e = Outcome.caught e := by
  unfold catchOutcome; rw [if_pos h]

theorem stageWrite_tp (op : Option Exc) (f : List Char) (tp ow sp : Bool) :
    (stageWrite op f tp ow sp).typePrompted = tp := by
  cases op <;> rfl

theorem stageSizeParsed_tp (pi : Option Int) (lf : Except Exc (List Char))
    (op : Option Exc) (f : List Char) (tp ow : Bool) :
    (stageSizeParsed pi lf op f tp ow).typePrompted = tp := by
  cases pi with
  | none => rfl
  | some n =>
    cases lf with
    | error e =>
      simp only [stageSizeParsed]
      split
      · rfl
      · exact stageWrite_tp op f tp ow false
    | ok a =>
      simp only [stageSizeParsed]
      split
      · split
        · exact stageWrite_tp op f tp ow true
        · rfl
      · exact stageWrite_tp op f tp ow false

theorem stageSize_tp (cl : Option (List Char)) (lf : Except Exc (List Char))
    (op : Option Exc) (f : List Char) (tp ow : Bool) :
    (stageSize cl lf op f tp ow).typePrompted = tp := by
  unfold stageSize
  cases cl with
  | none => exact stageWrite_tp op f tp ow false
  | some s => exact stageSizeParsed_tp (pyInt s) lf op f tp ow

theorem stageCollision_tp (fs : List (List Char)) (ow : Except Exc (List Char))
    (cl : Option (List Char)) (lf : Except Exc (List Char)) (op : Option Exc)
    (f : List Char) (tp : Bool) :
    (stageCollision fs ow cl lf op f tp).typePrompted = tp := by
  cases ow with
  | error e =>
    simp only [stageCollision]
    split
    · rfl
    · exact stageSize_tp cl lf op f tp false
  | ok a =>
    simp only [stageCollision]
    split
    · split
      · exact stageSize_tp cl lf op f tp true
      · exact stageSize_tp cl lf op _ tp true
    · exact stageSize_tp cl lf op f tp false

theorem stageName_tp (env : Env) (resp : Response) (tp : Bool) :
    (stageName env resp tp).typePrompted = tp :=
  stageCollision_tp env.fs env.owAnswer resp.contentLength env.lfAnswer env.openExc _ tp

theorem stageWrite_no_raise {op : Option Exc} {f : List Char} {tp ow sp : Bool}
    (h : excOkOpt op = true) (e : Exc) :
    (stageWrite op f tp ow sp).outcome ≠ Outcome.raised e := by
  cases op with
  | none => simp [stageWrite]
  | some ex =>
    simp only [excOkOpt] at h
    simp only [stageWrite, catchOutcome_caught h]
    simp

theorem stageSizeParsed_no_raise {pi : Option Int} {lf : Except Exc (List Char)}
    {op : Option Exc} {f : List Char} {tp ow : Bool}
    (hlf : excOkEx lf = true) (hop : excOkOpt op = true) (e : Exc) :
    (stageSizeParsed pi lf op f tp ow).outcome ≠ Outcome.raised e := by
  cases pi with
  | none =>
    simp only [stageSizeParsed, @catchOutcome_caught Exc.valueError rfl]
    simp
  | some n =>
    cases lf with
    | error ex =>
      simp only [excOkEx] at hlf
      simp only [stageSizeParsed]
      split
      · rw [catchOutcome_caught hlf]; simp
      · exact stageWrite_no_raise hop e
    | ok a =>
      simp only [stageSizeParsed]
      split
      · split
        · exact stageWrite_no_raise hop e
        · simp
      · exact stageWrite_no_raise hop e

theorem stageSize_no_raise {cl : Option (List Char)} {lf : Except Exc (List Char)}
    {op : Option Exc} {f : List Char} {tp ow : Bool}
    (hlf : excOkEx lf = true) (hop : excOkOpt op = true) (e : Exc) :
    (stageSize cl lf op f tp ow).outcome ≠ Outcome.raised e := by
  unfold stageSize
  cases cl with
  | none => exact stageWrite_no_raise hop e
  | some s => exact stageSizeParsed_no_raise hlf hop e

theorem stageCollision_no_raise {fs : List (List Char)} {ow : Except Exc (List Char)}
    {cl : Option (List Char)} {lf : Except Exc (List Char)} {op : Option Exc}
    {f : List Char} {tp : Bool}
    (how : excOkEx ow = true) (hlf : excOkEx lf = true) (hop : excOkOpt op = true) (e : Exc) :
    (stageCollision fs ow cl lf op f tp).outcome ≠ Outcome.raised e := by
  cases ow with
  | error ex =>
    simp only [excOkEx] at how
    simp only [stageCollision]
    split
    · rw [catchOutcome_caught how]; simp
    · exact stageSize_no_raise hlf hop e
  | ok a =>
    simp only [stageCollision]
    split
    · split
      · exact stageSize_no_raise hlf hop e
      · exact stageSize_no_raise hlf hop e
    · exact stageSize_no_raise hlf hop e

theorem stageName_no_raise {env : Env} {resp : Response} {tp : Bool}
    (how : excOkEx env.owAnswer = true) (hlf : excOkEx env.lfAnswer = true)
    (hop : excOkOpt env.openExc = true) (e : Exc) :
    (stageName env resp tp).outcome ≠ Outcome.raised e :=
  stageCollision_no_raise how hlf hop e

theorem stageWrite_written {op : Option Exc} {f : List Char} {tp ow sp : Bool} {g : List Char}
    (h : (stageWrite op f tp ow sp).written = some g) : g = f := by
  cases op with
  | some ex => exact Option.noConfusion h
  | none => exact (Option.some.inj h).symm

theorem stageSizeParsed_written {pi : Option Int} {lf : Except Exc (List Char)}
    {op : Option Exc} {f : List Char} {tp ow : Bool} {g : List Char}
    (h : (stageSizeParsed pi lf op f tp ow).written = some g) : g = f := by
  cases pi with
  | none => exact Option.noConfusion h
  | some n =>
    cases lf with
    | error ex =>
      simp only [stageSizeParsed] at h
      split at h
      · exact Option.noConfusion h
      · exact stageWrite_written h
    | ok a =>
      simp only [stageSizeParsed] at h
      split at h
      · split at h
        · exact stageWrite_written h
        · exact Option.noConfusion h
      · exact stageWrite_written h

theorem stageSize_written {cl : Option (List Char)} {lf : Except Exc (List Char)}
    {op : Option Exc} {f : List Char} {tp ow : Bool} {g : List Char}
    (h : (stageSize cl lf op f tp ow).written = some g) : g = f := by
  unfold stageSize at h
  cases cl with
  | none => exact stageWrite_written h
  | some s => exact stageSizeParsed_written h

theorem stageCollision_written {fs : List (List Char)} {ow : Except Exc (List Char)}
    {cl : Option (List Char)} {lf : Except Exc (List Char)} {op : Option Exc}
    {f : List Char} {tp : Bool} {g : List Char}
    (h : (stageCollision fs ow cl lf op f tp).written = some g) :
    (f ∉ fs ∧ g = f) ∨
    (f ∈ fs ∧
      ((∃ a, ow = Except.ok a ∧ pyLower a = ['y'] ∧ g = f) ∨
       (g = renameFrom (splitext f).1 (splitext f).2 fs ∧ g ∉ fs))) := by
  by_cases hmem : f ∈ fs
  · cases ow with
    | error ex =>
      simp only [stageCollision, if_pos hmem] at h
      exact Option.noConfusion h
    | ok a =>
      by_cases hy : pyLower a = ['y']
      · simp only [stageCollision, if_pos hmem, if_pos hy] at h
        exact Or.inr ⟨hmem, Or.inl ⟨a, rfl, hy, stageSize_written h⟩⟩
      · simp only [stageCollision, if_pos hmem, if_neg hy] at h
        have hg := stageSize_written h
        exact Or.inr ⟨hmem, Or.inr ⟨hg, hg ▸ renameFrom_not_mem _ _ _⟩⟩
  · simp only [stageCollision, if_neg hmem] at h
    exact Or.inl ⟨hmem, stageSize_written h⟩

theorem stageName_written_clean {env : Env} {resp : Response}
    (hfs : env.fs = []) (hcl : resp.contentLength = none) (hop : env.openExc = none)
    (tp : Bool) :
    (stageName env resp tp).written =
      some (sanitize_filename (deriveFilename env.urlPath resp.contentType env.urlHash)) := by
  unfold stageName stageCollision
  rw [hfs, if_neg (List.not_mem_nil _)]
  unfold stageSize
  rw [hcl]
  unfold stageWrite
  rw [hop]

theorem stageSize_badLength {cl : Option (List Char)} {lf : Except Exc (List Char)}
    {op : Option Exc} {f : List Char} {tp ow : Bool} {s : List Char}
    (hcl : cl = some s) (hbad : pyInt s = none) :
    (stageSize cl lf op f tp ow).written = none ∧
    (stageSize cl lf op f tp ow).outcome = Outcome.caught Exc.valueError := by
  unfold stageSize
  rw [hcl]
  show (stageSizeParsed (pyInt s) lf op f tp ow).written = none ∧
    (stageSizeParsed (pyInt s) lf op f tp ow).outcome = Outcome.caught Exc.valueError
  rw [hbad]
  exact ⟨rfl, rfl⟩

theorem stageCollision_badLength_written {fs : List (List Char)} {ow : Except Exc (List Char)}
    {cl : Option (List Char)} {lf : Except Exc (List Char)} {op : Option Exc}
    {f : List Char} {tp : Bool} {s : List Char}
    (hcl : cl = some s) (hbad : pyInt s = none) :
    (stageCollision fs ow cl lf op f tp).written = none := by
  cases ow with
  | error ex =>
    simp only [stageCollision]
    split
    · rfl
    · exact (stageSize_badLength hcl hbad).1
  | ok a =>
    simp only [stageCollision]
    split
    · split
      · exact (stageSize_badLength hcl hbad).1
      · exact (stageSize_badLength hcl hbad).1
    · exact (stageSize_badLength hcl hbad).1

theorem stageCollision_badLength_outcome {fs : List (List Char)} {ow : Except Exc (List Char)}
    {cl : Option (List Char)} {lf : Except Exc (List Char)} {op : Option Exc}
    {f : List Char} {tp : Bool} {s : List Char}
    (hcl : cl = some s) (hbad : pyInt s = none) (how : ∀ e, ow ≠ Except.error e) :
    (stageCollision fs ow cl lf op f tp).outcome = Outcome.caught Exc.valueError := by
  cases ow with
  | error ex => exact absurd rfl (how ex)
  | ok a =>
    simp only [stageCollision]
    split
    · split
      · exact (stageSize_badLength hcl hbad).2
      · exact (stageSize_badLength hcl hbad).2
    · exact (stageSize_badLength hcl hbad).2

/-! ## Reaching the stages of `main` -/

/-- `deriveFilename` with its `let`s expanded. -/
theorem deriveFilename_eq (up ct : List Char) (uh : Int) :
    deriveFilename up ct uh =
      if basename up = [] ∨ '.' ∉ basename up then
        "ubuntu_image_".toList ++ natToChars ((uh % 10000).toNat)
          ++ pyOr (get_extension_from_content_type ct) ".jpg".toList
      else basename up := rfl

theorem run_main_err {env : Env} {e : Exc} (h : env.urlInput = Except.error e) :
    run_main env = ⟨Outcome.raised e, none, false, false, false⟩ := by
  unfold run_main
  rw [h]

theorem run_main_ok {env : Env} {u : List Char} (h : env.urlInput = Except.ok u) :
    run_main env =
      if stripWs u = [] then ⟨Outcome.noUrl, none, false, false, false⟩
      else mainDirs env.makedirsExc env := by
  unfold run_main
  rw [h]

theorem run_main_reach {env : Env} {u : List Char} {resp : Response}
    (h1 : env.urlInput = Except.ok u) (h2 : stripWs u ≠ [])
    (h3 : env.makedirsExc = none) (h4 : env.getResult = Except.ok resp)
    (h5 : resp.statusError = false) (h6 : isImageType resp.contentType = true) :
    run_main env = stageName env resp false := by
  rw [run_main_ok h1, if_neg h2, h3]
  simp only [mainDirs]
  rw [h4]
  simp only [mainGet, mainResp]
  rw [if_neg (show ¬(resp.statusError = true) by simp [h5]), if_pos h6]

theorem run_main_reach_prompted {env : Env} {u a : List Char} {resp : Response}
    (h1 : env.urlInput = Except.ok u) (h2 : stripWs u ≠ [])
    (h3 : env.makedirsExc = none) (h4 : env.getResult = Except.ok resp)
    (h5 : resp.statusError = false) (h6 : isImageType resp.contentType = false)
    (h7 : env.ctAnswer = Except.ok a) (h8 : pyLower a = ['y']) :
    run_main env = stageName env resp true := by
  rw [run_main_ok h1, if_neg h2, h3]
  simp only [mainDirs]
  rw [h4]
  simp only [mainGet, mainResp]
  rw [if_neg (show ¬(resp.statusError = true) by simp [h5]),
    if_neg (show ¬(isImageType resp.contentType = true) by simp [h6]), h7]
  simp only [mainType]
  rw [if_pos h8]

theorem run_main_declineType {env : Env} {u a : List Char} {resp : Response}
    (h1 : env.urlInput = Except.ok u) (h2 : stripWs u ≠ [])
    (h3 : env.makedirsExc = none) (h4 : env.getResult = Except.ok resp)
    (h5 : resp.statusError = false) (h6 : isImageType resp.contentType = false)
    (h7 : env.ctAnswer = Except.ok a) (h8 : pyLower a ≠ ['y']) :
    run_main env = ⟨Outcome.cancelledType, none, true, false, false⟩ := by
  rw [run_main_ok h1, if_neg h2, h3]
  simp only [mainDirs]
  rw [h4]
  simp only [mainGet, mainResp]
  rw [if_neg (show ¬(resp.statusError = true) by simp [h5]),
    if_neg (show ¬(isImageType resp.contentType = true) by simp [h6]), h7]
  simp only [mainType]
  rw [if_neg h8]

theorem stageName_nocollision {env : Env} {resp : Response} {tp : Bool}
    (hnc : sanitize_filename (deriveFilename env.urlPath resp.contentType env.urlHash)
            ∉ env.fs) :
    stageName env resp tp =
      stageSize resp.contentLength env.lfAnswer env.openExc
        (sanitize_filename (deriveFilename env.urlPath resp.contentType env.urlHash))
        tp false := by
  unfold stageName stageCollision
  rw [if_neg hnc]

theorem stageName_collision_decline {env : Env} {resp : Response} {tp : Bool} {a : List Char}
    (hc : sanitize_filename (deriveFilename env.urlPath resp.contentType env.urlHash)
            ∈ env.fs)
    (ha : env.owAnswer = Except.ok a) (hy : pyLower a ≠ ['y']) :
    stageName env resp tp =
      stageSize resp.contentLength env.lfAnswer env.openExc
        (renameFrom
          (splitext (sanitize_filename
            (deriveFilename env.urlPath resp.contentType env.urlHash))).1
          (splitext (sanitize_filename
            (deriveFilename env.urlPath resp.contentType env.urlHash))).2
          env.fs)
        tp true := by
  unfold stageName stageCollision
  simp only [if_pos hc, ha, if_neg hy]

/-! ## Claim theorems: the behaviour of `main` -/

/-- C2 (corrected) counterexample: an exception raised by the URL
`input()` of line 16 — which sits before the `try` of line 22 —
propagates out of `main`: the claim that every failure, including one
raised while reading the URL, is caught, is false. -/
theorem url_read_exception_propagates :
    (run_main ⟨Except.error Exc.eofError, none, Except.ok ⟨false, [], none⟩, [], 0,
      Except.ok [], Except.ok [], Except.ok [], [], none⟩).outcome
      = Outcome.raised Exc.eofError := by decide

/-- C2 (amended): once the URL has been read successfully, no exception
that subclasses `Exception` escapes `main`: every failure delivered
inside the `try` block (network, HTTP status, filesystem, prompt reads,
the `int` conversion) is caught by the handler chain of lines 97-114. -/
theorem main_catches_all_after_url (env : Env) (u : List Char)
    (hu : env.urlInput = Except.ok u) (hok : envExcsOk env = true) (e : Exc) :
    (run_main env).outcome ≠ Outcome.raised e := by
  simp only [envExcsOk, Bool.and_eq_true] at hok
  obtain ⟨⟨⟨⟨⟨hmk, hgr⟩, hct⟩, how⟩, hlf⟩, hop⟩ := hok
  rw [run_main_ok hu]
  by_cases hnil : stripWs u = []
  · rw [if_pos hnil]; simp
  · rw [if_neg hnil]
    cases hmd : env.makedirsExc with
    | some ex =>
      rw [hmd] at hmk
      simp only [excOkOpt] at hmk
      simp only [mainDirs]
      rw [catchOutcome_caught hmk]
      simp
    | none =>
      simp only [mainDirs]
      cases hgr2 : env.getResult with
      | error ex =>
        rw [hgr2] at hgr
        simp only [excOkEx] at hgr
        simp only [mainGet]
        rw [catchOutcome_caught hgr]
        simp
      | ok resp =>
        simp only [mainGet, mainResp]
        by_cases hst : resp.statusError = true
        · rw [if_pos hst]
          rw [@catchOutcome_caught Exc.httpError rfl]
          simp
        · rw [if_neg hst]
          by_cases him : isImageType resp.contentType = true
          · rw [if_pos him]
            exact stageName_no_raise how hlf hop e
          · rw [if_neg him]
            cases hc2 : env.ctAnswer with
            | error ex =>
              rw [hc2] at hct
              simp only [excOkEx] at hct
              simp only [mainType]
              rw [catchOutcome_caught hct]
              simp
            | ok a =>
              simp only [mainType]
              by_cases hy : pyLower a = ['y']
              · rw [if_pos hy]
                exact stageName_no_raise how hlf hop e
              · rw [if_neg hy]
                simp

theorem main_catches_all_after_url_witness :
    (run_main ⟨Except.ok "u".toList, none, Except.error Exc.connectionError, [], 0,
      Except.ok [], Except.ok [], Except.ok [], [], none⟩).outcome
      ≠ Outcome.raised Exc.connectionError :=
  main_catches_all_after_url _ "u".toList rfl (by decide) Exc.connectionError

/-- C3 (corrected) counterexample: declining the overwrite prompt is
not an early return — the run renames and still writes a file
(`cat_1.png`), contradicting "no file is written afterwards,
identically for all three prompts". -/
theorem overwrite_decline_still_writes :
    (run_main ⟨Except.ok "u".toList, none, Except.ok ⟨false, "image/png".toList, none⟩,
      "/cat.png".toList, 0, Except.ok [], Except.ok ['n'], Except.ok [],
      ["cat.png".toList], none⟩).written = some "cat_1.png".toList := by decide

/-- C3 (amended): declining the content-type prompt or the large-file
prompt (any answer whose lowercase form is not `y`) is an early,
non-erroring return with no file written; declining the overwrite
prompt instead continues the download under the renamed filename. -/
theorem confirmation_decline_paths :
    (∀ (env : Env) (u a : List Char) (resp : Response),
      env.urlInput = Except.ok u → stripWs u ≠ [] → env.makedirsExc = none →
      env.getResult = Except.ok resp → resp.statusError = false →
      isImageType resp.contentType = false →
      env.ctAnswer = Except.ok a → pyLower a ≠ ['y'] →
      (run_main env).outcome = Outcome.cancelledType ∧ (run_main env).written = none) ∧
    (∀ (env : Env) (u s a : List Char) (n : Int) (resp : Response),
      env.urlInput = Except.ok u → stripWs u ≠ [] → env.makedirsExc = none →
      env.getResult = Except.ok resp → resp.statusError = false →
      isImageType resp.contentType = true →
      sanitize_filename (deriveFilename env.urlPath resp.contentType env.urlHash)
        ∉ env.fs →
      resp.contentLength = some s → pyInt s = some n → 52428800 < n →
      env.lfAnswer = Except.ok a → pyLower a ≠ ['y'] →
      (run_main env).outcome = Outcome.cancelledSize ∧ (run_main env).written = none) ∧
    (∀ (env : Env) (u a : List Char) (resp : Response),
      env.urlInput = Except.ok u → stripWs u ≠ [] → env.makedirsExc = none →
      env.getResult = Except.ok resp → resp.statusError = false →
      isImageType resp.contentType = true →
      sanitize_filename (deriveFilename env.urlPath resp.contentType env.urlHash)
        ∈ env.fs →
      env.owAnswer = Except.ok a → pyLower a ≠ ['y'] →
      resp.contentLength = none → env.openExc = none →
      (run_main env).outcome = Outcome.success ∧
      (run_main env).written = some (renameFrom
        (splitext (sanitize_filename
          (deriveFilename env.urlPath resp.contentType env.urlHash))).1
        (splitext (sanitize_filename
          (deriveFilename env.urlPath resp.contentType env.urlHash))).2
        env.fs)) := by
  refine ⟨?_, ?_, ?_⟩
  · intro env u a resp h1 h2 h3 h4 h5 h6 h7 h8
    rw [run_main_declineType h1 h2 h3 h4 h5 h6 h7 h8]
    exact ⟨rfl, rfl⟩
  · intro env u s a n resp h1 h2 h3 h4 h5 h6 hnc hcl hpi hbig hlf hy
    have hrm : run_main env = ⟨Outcome.cancelledSize, none, false, false, true⟩ := by
      rw [run_main_reach h1 h2 h3 h4 h5 h6, stageName_nocollision hnc, hcl]
      rw [show stageSize (some s) env.lfAnswer env.openExc
            (sanitize_filename (deriveFilename env.urlPath resp.contentType env.urlHash))
            false false
          = stageSizeParsed (pyInt s) env.lfAnswer env.openExc
            (sanitize_filename (deriveFilename env.urlPath resp.contentType env.urlHash))
            false false from rfl, hpi]
      simp only [stageSizeParsed]
      rw [if_pos hbig, hlf]
      simp only []
      rw [if_neg hy]
    rw [hrm]
    exact ⟨rfl, rfl⟩
  · intro env u a resp h1 h2 h3 h4 h5 h6 hc ha hy hcl hop
    have hrm : run_main env = ⟨Outcome.success,
        some (renameFrom
          (splitext (sanitize_filename
            (deriveFilename env.urlPath resp.contentType env.urlHash))).1
          (splitext (sanitize_filename
            (deriveFilename env.urlPath resp.contentType env.urlHash))).2
          env.fs), false, true, false⟩ := by
      rw [run_main_reach h1 h2 h3 h4 h5 h6, stageName_collision_decline hc ha hy, hcl]
      rw [show stageSize none env.lfAnswer env.openExc
            (renameFrom
              (splitext (sanitize_filename
                (deriveFilename env.urlPath resp.contentType env.urlHash))).1
              (splitext (sanitize_filename
                (deriveFilename env.urlPath resp.contentType env.urlHash))).2
              env.fs) false true
          = stageWrite env.openExc
            (renameFrom
              (splitext (sanitize_filename
                (deriveFilename env.urlPath resp.contentType env.urlHash))).1
              (splitext (sanitize_filename
                (deriveFilename env.urlPath resp.contentType env.urlHash))).2
              env.fs) false true false from rfl, hop]
      rfl
    rw [hrm]
    exact ⟨rfl, rfl⟩

theorem confirmation_decline_paths_witness :
    ((run_main ⟨Except.ok "u".toList, none,
        Except.ok ⟨false, "text/html".toList, none⟩, "/cat.png".toList, 0,
        Except.ok ['n'], Except.ok [], Except.ok [], [], none⟩).outcome
      = Outcome.cancelledType ∧
     (run_main ⟨Except.ok "u".toList, none,
        Except.ok ⟨false, "text/html".toList, none⟩, "/cat.png".toList, 0,
        Except.ok ['n'], Except.ok [], Except.ok [], [], none⟩).written = none) ∧
    ((run_main ⟨Except.ok "u".toList, none,
        Except.ok ⟨false, "image/png".toList, some "62914560".toList⟩,
        "/cat.png".toList, 0, Except.ok [], Except.ok [], Except.ok ['n'],
        [], none⟩).outcome = Outcome.cancelledSize ∧
     (run_main ⟨Except.ok "u".toList, none,
        Except.ok ⟨false, "image/png".toList, some "62914560".toList⟩,
        "/cat.png".toList, 0, Except.ok [], Except.ok [], Except.ok ['n'],
        [], none⟩).written = none) :=
  ⟨confirmation_decline_paths.1 _ "u".toList ['n'] ⟨false, "text/html".toList, none⟩
      rfl (by decide) rfl rfl rfl (by decide) rfl (by decide),
   confirmation_decline_paths.2.1 _ "u".toList "62914560".toList ['n'] 62914560
      ⟨false, "image/png".toList, some "62914560".toList⟩
      rfl (by decide) rfl rfl rfl (by decide) (by decide) rfl (by decide) (by decide)
      rfl (by decide)⟩

/-- C4 (corrected) counterexample: in a run where the name collision
was detected and the user accepted the overwrite prompt, the file is
opened for writing under a name that does already exist — the claimed
invariant fails for accepted overwrites. -/
theorem overwrite_accept_hits_existing :
    (run_main ⟨Except.ok "u".toList, none, Except.ok ⟨false, "image/png".toList, none⟩,
      "/cat.png".toList, 0, Except.ok [], Except.ok ['y'], Except.ok [],
      ["cat.png".toList], none⟩).written = some "cat.png".toList ∧
    "cat.png".toList ∈ ["cat.png".toList] := by decide

/-- C4 (amended): in every run that reaches the write step, the chosen
filename does not already exist at the target path — unless a collision
was detected and the user accepted the overwrite prompt, in which case
the pre-existing file is deliberately overwritten. -/
theorem written_file_not_preexisting_unless_overwrite (env : Env) (g : List Char)
    (h : (run_main env).written = some g) :
    g ∉ env.fs ∨
    (g ∈ env.fs ∧ ∃ a, env.owAnswer = Except.ok a ∧ pyLower a = ['y']) := by
  have hfin : ∀ (resp : Response) (tp : Bool),
      (stageName env resp tp).written = some g →
      g ∉ env.fs ∨ (g ∈ env.fs ∧ ∃ a, env.owAnswer = Except.ok a ∧ pyLower a = ['y']) := by
    intro resp tp hw
    rcases stageCollision_written hw with ⟨hnm, rfl⟩ | ⟨hm, hrest⟩
    · exact Or.inl hnm
    · rcases hrest with ⟨a, ha, hy, rfl⟩ | ⟨hgr, hnm⟩
      · exact Or.inr ⟨hm, a, ha, hy⟩
      · exact Or.inl hnm
  cases hu : env.urlInput with
  | error e =>
    rw [run_main_err hu] at h
    exact Option.noConfusion h
  | ok u =>
    rw [run_main_ok hu] at h
    by_cases hnil : stripWs u = []
    · rw [if_pos hnil] at h
      exact Option.noConfusion h
    · rw [if_neg hnil] at h
      cases hmd : env.makedirsExc with
      | some ex =>
        rw [hmd] at h
        simp only [mainDirs] at h
        exact Option.noConfusion h
      | none =>
        rw [hmd] at h
        simp only [mainDirs] at h
        cases hgr : env.getResult with
        | error ex =>
          rw [hgr] at h
          simp only [mainGet] at h
          exact Option.noConfusion h
        | ok resp =>
          rw [hgr] at h
          simp only [mainGet, mainResp] at h
          by_cases hst : resp.statusError = true
          · rw [if_pos hst] at h
            exact Option.noConfusion h
          · rw [if_neg hst] at h
            by_cases him : isImageType resp.contentType = true
            · rw [if_pos him] at h
              exact hfin resp false h
            · rw [if_neg him] at h
              cases hca : env.ctAnswer with
              | error ex =>
                rw [hca] at h
                simp only [mainType] at h
                exact Option.noConfusion h
              | ok a =>
                rw [hca] at h
                simp only [mainType] at h
                by_cases hy : pyLower a = ['y']
                · rw [if_pos hy] at h
                  exact hfin resp true h
                · rw [if_neg hy] at h
                  exact Option.noConfusion h

theorem written_file_not_preexisting_unless_overwrite_witness :
    "cat.png".toList ∉ ([] : List (List Char)) ∨
    ("cat.png".toList ∈ ([] : List (List Char)) ∧
      ∃ a, (Except.ok ([] : List Char) : Except Exc (List Char)) = Except.ok a ∧
        pyLower a = ['y']) :=
  written_file_not_preexisting_unless_overwrite
    ⟨Except.ok "u".toList, none, Except.ok ⟨false, "image/png".toList, none⟩,
      "/cat.png".toList, 0, Except.ok [], Except.ok [], Except.ok [], [], none⟩
    "cat.png".toList (by decide)

theorem natToChars_safe {c : Char} {n : Nat} (h : c ∈ natToChars n) :
    c ∉ dangerous_chars :=
  (show ∀ x ∈ "0123456789".toList, x ∉ dangerous_chars by decide) c
    (natToChars_mem_digits h)

theorem resolved_extension_safe (ct : List Char) :
    (∀ c ∈ pyOr (get_extension_from_content_type ct) ".jpg".toList, c ∉ dangerous_chars) ∧
    (pyOr (get_extension_from_content_type ct) ".jpg".toList).length ≤ 5 := by
  have hmem := resolved_extension_mem ct
  simp only [List.mem_cons, List.mem_nil_iff, or_false] at hmem
  rcases hmem with h | h | h | h | h | h | h <;> rw [h] <;> exact ⟨by decide, by decide⟩

/-- The synthesized fallback filename is already safe: `sanitize_filename`
leaves it unchanged. -/
theorem synthesized_safe (uh : Int) (ct : List Char) :
    sanitize_filename ("ubuntu_image_".toList ++ natToChars ((uh % 10000).toNat)
      ++ pyOr (get_extension_from_content_type ct) ".jpg".toList)
    = "ubuntu_image_".toList ++ natToChars ((uh % 10000).toNat)
      ++ pyOr (get_extension_from_content_type ct) ".jpg".toList := by
  apply sanitize_safe_id
  · intro c hc
    rcases List.mem_append.1 hc with hc2 | hc2
    · rcases List.mem_append.1 hc2 with hc3 | hc3
      · exact (show ∀ x ∈ "ubuntu_image_".toList, x ∉ dangerous_chars by decide) c hc3
      · exact natToChars_safe hc3
    · exact (resolved_extension_safe ct).1 c hc2
  · rw [List.length_append, List.length_append]
    have h1 : ("ubuntu_image_".toList).length = 13 := by decide
    have hn : ((uh % 10000).toNat) < 10 ^ (3 + 1) := by
      have ha : 0 ≤ uh % 10000 := Int.emod_nonneg uh (by norm_num)
      have hb : uh % 10000 < 10000 := Int.emod_lt_of_pos uh (by norm_num)
      rw [show (10 : Nat) ^ (3 + 1) = 10000 from by norm_num]
      omega
    have h2 : (natToChars ((uh % 10000).toNat)).length ≤ 4 := natToChars_length_le hn
    have h3 := (resolved_extension_safe ct).2
    omega

/-- C5: when the URL path's last segment is empty or has no dot, the
file is saved under the synthesized name
`ubuntu_image_{hash(url) % 10000}{ext}`, `ext` resolved from the
content type with default `.jpg` (e.g. `image/jpeg` maps to `.jpg`);
the sanitizer leaves the synthesized name untouched. -/
theorem synthesized_filename_spec (env : Env) (u : List Char) (resp : Response)
    (h1 : env.urlInput = Except.ok u) (h2 : stripWs u ≠ [])
    (h3 : env.makedirsExc = none) (h4 : env.getResult = Except.ok resp)
    (h5 : resp.statusError = false) (h6 : isImageType resp.contentType = true)
    (hb : basename env.urlPath = [] ∨ '.' ∉ basename env.urlPath)
    (hfs : env.fs = []) (hcl : resp.contentLength = none) (hop : env.openExc = none) :
    (run_main env).written = some ("ubuntu_image_".toList
      ++ natToChars ((env.urlHash % 10000).toNat)
      ++ pyOr (get_extension_from_content_type resp.contentType) ".jpg".toList) ∧
    get_extension_from_content_type "image/jpeg".toList = some ".jpg".toList := by
  refine ⟨?_, by decide⟩
  rw [run_main_reach h1 h2 h3 h4 h5 h6, stageName_written_clean hfs hcl hop]
  rw [deriveFilename_eq, if_pos hb, synthesized_safe]

theorem synthesized_filename_spec_witness :
    (run_main ⟨Except.ok "u".toList, none,
      Except.ok ⟨false, "image/jpeg".toList, none⟩,
      "/image".toList, -7, Except.ok [], Except.ok [], Except.ok [], [], none⟩).written
      = some ("ubuntu_image_".toList ++ natToChars (((-7 : Int) % 10000).toNat)
        ++ pyOr (get_extension_from_content_type "image/jpeg".toList) ".jpg".toList) :=
  (synthesized_filename_spec _ "u".toList ⟨false, "image/jpeg".toList, none⟩
    rfl (by decide) rfl rfl rfl (by decide) (by decide) rfl rfl rfl).1

/-- C9: a content-length header that is not a decimal integer string
makes the `int` conversion of line 72 raise `ValueError`: no run with
such a header ever writes or creates a file, and a run that reaches the
conversion ends in the generic catch-all with that error. -/
theorem bad_content_length_aborts (env : Env) (resp : Response) (s : List Char)
    (hresp : env.getResult = Except.ok resp) (hcl : resp.contentLength = some s)
    (hbad : pyInt s = none) :
    (run_main env).written = none ∧
    (∀ u, env.urlInput = Except.ok u → stripWs u ≠ [] → env.makedirsExc = none →
      resp.statusError = false → isImageType resp.contentType = true →
      sanitize_filename (deriveFilename env.urlPath resp.contentType env.urlHash)
        ∉ env.fs →
      (run_main env).outcome = Outcome.caught Exc.valueError) := by
  constructor
  · cases hu : env.urlInput with
    | error e => rw [run_main_err hu]
    | ok u =>
      rw [run_main_ok hu]
      by_cases hnil : stripWs u = []
      · rw [if_pos hnil]
      · rw [if_neg hnil]
        cases hmd : env.makedirsExc with
        | some ex => simp only [mainDirs]
        | none =>
          simp only [mainDirs]
          rw [hresp]
          simp only [mainGet, mainResp]
          by_cases hst : resp.statusError = true
          · rw [if_pos hst]
          · rw [if_neg hst]
            by_cases him : isImageType resp.contentType = true
            · rw [if_pos him]
              exact stageCollision_badLength_written hcl hbad
            · rw [if_neg him]
              cases hca : env.ctAnswer with
              | error ex => simp only [mainType]
              | ok a =>
                simp only [mainType]
                by_cases hy : pyLower a = ['y']
                · rw [if_pos hy]
                  exact stageCollision_badLength_written hcl hbad
                · rw [if_neg hy]
  · intro u hu hnil hmk hst him hnc
    rw [run_main_reach hu hnil hmk hresp hst him, stageName_nocollision hnc, hcl]
    exact (stageSize_badLength rfl hbad).2

theorem bad_content_length_aborts_witness :
    (run_main ⟨Except.ok "u".toList, none,
      Except.ok ⟨false, "image/png".toList, some "abc".toList⟩, "/cat.png".toList, 0,
      Except.ok [], Except.ok [], Except.ok [], [], none⟩).written = none ∧
    (run_main ⟨Except.ok "u".toList, none,
      Except.ok ⟨false, "image/png".toList, some "abc".toList⟩, "/cat.png".toList, 0,
      Except.ok [], Except.ok [], Except.ok [], [], none⟩).outcome
      = Outcome.caught Exc.valueError := by
  have h := bad_content_length_aborts
    ⟨Except.ok "u".toList, none,
      Except.ok ⟨false, "image/png".toList, some "abc".toList⟩, "/cat.png".toList, 0,
      Except.ok [], Except.ok [], Except.ok [], [], none⟩
    ⟨false, "image/png".toList, some "abc".toList⟩ "abc".toList rfl rfl (by decide)
  exact ⟨h.1, h.2 "u".toList rfl (by decide) rfl rfl (by decide) (by decide)⟩

/-- C10: the content-type image check of line 37 is a case-sensitive
`startswith('image/')`: any header value not starting with that exact
lowercase prefix (e.g. `Image/PNG`) triggers the warning prompt, even
though the extension resolver lowercases its input and does map
`Image/PNG` to `.png`. -/
theorem content_type_check_case_sensitive :
    (∀ (env : Env) (u : List Char) (resp : Response),
      env.urlInput = Except.ok u → stripWs u ≠ [] → env.makedirsExc = none →
      env.getResult = Except.ok resp → resp.statusError = false →
      isImageType resp.contentType = false →
      (run_main env).typePrompted = true) ∧
    isImageType "Image/PNG".toList = false ∧
    get_extension_from_content_type "Image/PNG".toList = some ".png".toList := by
  refine ⟨?_, by decide, by decide⟩
  intro env u resp h1 h2 h3 h4 h5 h6
  rw [run_main_ok h1, if_neg h2, h3]
  simp only [mainDirs]
  rw [h4]
  simp only [mainGet, mainResp]
  rw [if_neg (show ¬(resp.statusError = true) by simp [h5]),
    if_neg (show ¬(isImageType resp.contentType = true) by simp [h6])]
  cases hca : env.ctAnswer with
  | error e => simp only [mainType]
  | ok a =>
    simp only [mainType]
    by_cases hy : pyLower a = ['y']
    · rw [if_pos hy]
      exact stageName_tp env resp true
    · rw [if_neg hy]

theorem content_type_check_case_sensitive_witness :
    (run_main ⟨Except.ok "u".toList, none,
      Except.ok ⟨false, "Image/PNG".toList, none⟩,
      "/cat.png".toList, 0, Except.ok ['y'], Except.ok [], Except.ok [], [],
      none⟩).typePrompted = true :=
  content_type_check_case_sensitive.1 _ "u".toList ⟨false, "Image/PNG".toList, none⟩
    rfl (by decide) rfl rfl rfl (by decide)

end ImageFetcher
